import Mathlib

/-!
Shallow embedding of the Smart Vegetable Storage System inventory engine
(src/models/vegetable.py, src/models/storage_bin.py, src/models/storage_system.py).

Modelling conventions:
* Python `int` values (quantities, capacities, temperatures, humidities) are
  embedded as `Int`.
* `Vegetable.days_until_expiry()` computes `expiry_date - datetime.now().date()`.
  All the claims under study fix the current date, so a `Vegetable` carries the
  integer `days_until_expiry` directly instead of a calendar date.
  `added_date` is set at construction and never read by the engine; it is omitted.
* Python dictionaries (`StorageSystem.bins`) are embedded as insertion-ordered
  association lists with unique keys; `dictSet` mirrors `d[k] = v`.
* In-place object mutation is embedded by explicit state passing: each engine
  operation takes the `StorageSystem` state and returns the new state together
  with the Python return value.
* `StorageSystem._auto_sort_bin_by_expiration` (storage_system.py:188) assigns
  the sorted list to the attribute `vegetables` of the bin object.  The
  `StorageBin` class (storage_bin.py) stores its items in the attribute
  `contents` and no reader ever consults `vegetables`; the embedding keeps this
  dynamically-created attribute as an extra `Option` field so the dead store is
  represented faithfully.
* `StorageBin` defines attributes `current_temperature` / `current_humidity`
  (storage_bin.py:5-6).  `StorageSystem.update_bin_conditions`
  (storage_system.py:533) reads `bin_obj.temperature`, an attribute that no code
  path ever assigns (the only assignment, line 548, is unreachable because the
  read on line 533 happens first), so that read raises `AttributeError`.
  Exception-raising paths are embedded with `Except PyErr`.
-/

/-- Python exceptions that the embedded code can raise. -/
inductive PyErr where
  | attributeError
  | zeroDivisionError
deriving Repr, DecidableEq

/-- `Vegetable` (src/models/vegetable.py).  `days_until_expiry` is the value of
`(expiry_date - datetime.now().date()).days` at the fixed current date. -/
structure Vegetable where
  name : String
  quantity : Int
  temp : Int
  humidity : Int
  days_until_expiry : Int
deriving Repr, DecidableEq

/-- `StorageBin` (src/models/storage_bin.py).  `vegetables` is the
dynamically-assigned attribute written (only) by
`StorageSystem._auto_sort_bin_by_expiration`; it is `none` until that first
assignment and is never read back by any code path. -/
structure StorageBin where
  bin_id : String
  max_capacity : Int
  current_temperature : Int
  current_humidity : Int
  contents : List Vegetable
  vegetables : Option (List Vegetable)
deriving Repr, DecidableEq

/-- `StorageBin.__init__` (storage_bin.py:2-7): fresh bin with empty contents. -/
def StorageBin.init (bin_id : String) (max_capacity temp humidity : Int) : StorageBin :=
  ⟨bin_id, max_capacity, temp, humidity, [], none⟩

/-- `StorageBin.add_vegetable` (storage_bin.py:9-13): appends only when the
record count is strictly below `max_capacity`, returning whether it appended. -/
def StorageBin.add_vegetable (b : StorageBin) (v : Vegetable) : StorageBin × Bool :=
  if (b.contents.length : Int) < b.max_capacity then
    ({ b with contents := b.contents ++ [v] }, true)
  else
    (b, false)

/-- Helper for `StorageBin.remove_vegetable`: removes the first element whose
`name` equals `n` (case-sensitive, like `veg.name == name` followed by
`self.contents.remove(veg)`), returning the new list and whether a removal
happened. -/
def removeFirstByName : List Vegetable → String → List Vegetable × Bool
  | [], _ => ([], false)
  | v :: rest, n =>
    if v.name = n then (rest, true)
    else
      let r := removeFirstByName rest n
      (v :: r.1, r.2)

/-- `StorageBin.remove_vegetable` (storage_bin.py:15-20). -/
def StorageBin.remove_vegetable (b : StorageBin) (n : String) : StorageBin × Bool :=
  let r := removeFirstByName b.contents n
  ({ b with contents := r.1 }, r.2)

/-- `StorageBin.get_all_vegetables` (storage_bin.py:22-23): `return self.contents`.
(The Python return value aliases the internal list; the aliasing itself is
modelled separately for the snapshot claim.) -/
def StorageBin.get_all_vegetables (b : StorageBin) : List Vegetable :=
  b.contents

/-- `MAX_SAFE_TEMP` (storage_system.py:9). -/
def MAX_SAFE_TEMP : Int := 15

/-- `MAX_SAFE_HUMIDITY` (storage_system.py:10). -/
def MAX_SAFE_HUMIDITY : Int := 98

/-- `StorageSystem` state: the `bins` dictionary, as an insertion-ordered
association list with unique keys.  The constant `vegetable_profiles` table is
embedded as a top-level constant below. -/
structure SysState where
  bins : List (String × StorageBin)
deriving Repr, DecidableEq

/-- The empty `StorageSystem.__init__` state. -/
def SysState.init : SysState := ⟨[]⟩

/-- `bin_id in self.bins`. -/
def SysState.hasBin (s : SysState) (bin_id : String) : Bool :=
  s.bins.any (fun p => p.1 = bin_id)

/-- `self.bins[bin_id]` (lookup). -/
def lookupBin (s : SysState) (bin_id : String) : Option StorageBin :=
  (s.bins.find? (fun p => p.1 = bin_id)).map (·.2)

/-- Python dict assignment `d[k] = v`: replace in place if the key exists,
otherwise append (insertion order preserved). -/
def dictSet (m : List (String × StorageBin)) (k : String) (v : StorageBin) :
    List (String × StorageBin) :=
  if m.any (fun p => p.1 = k) then
    m.map (fun p => if p.1 = k then (k, v) else p)
  else
    m ++ [(k, v)]

/-- Write a bin object back into the registry (models in-place mutation of the
bin object referenced by the dictionary). -/
def SysState.setBin (s : SysState) (bin_id : String) (b : StorageBin) : SysState :=
  ⟨dictSet s.bins bin_id b⟩

/-- `StorageSystem._is_environment_safe` (storage_system.py:87-89). -/
def is_environment_safe (temp humidity : Int) : Bool :=
  temp ≤ MAX_SAFE_TEMP && humidity ≤ MAX_SAFE_HUMIDITY

/-- Observable outcome of `create_bin`, distinguishing the branch taken
(the Python function returns `False` for both failure branches but reports a
different alert/message in each, and `True` on success). -/
inductive CreateResult where
  | unsafeEnvironment
  | duplicateBin
  | success
deriving Repr, DecidableEq

/-- `StorageSystem.create_bin` (storage_system.py:65-85): safety gate first,
then the duplicate check, then registration. -/
def create_bin (s : SysState) (bin_id : String) (max_capacity temp humidity : Int) :
    SysState × CreateResult :=
  if ¬ is_environment_safe temp humidity then
    (s, CreateResult.unsafeEnvironment)
  else if s.hasBin bin_id then
    (s, CreateResult.duplicateBin)
  else
    (⟨s.bins ++ [(bin_id, StorageBin.init bin_id max_capacity temp humidity)]⟩,
      CreateResult.success)

/-- Sum of the `quantity` fields of a list of vegetables. -/
def sumQuantities (l : List Vegetable) : Int :=
  (l.map (·.quantity)).sum

/-- `StorageSystem.get_current_capacity` (storage_system.py:117-121). -/
def get_current_capacity (s : SysState) (bin_id : String) : Int :=
  match lookupBin s bin_id with
  | none => 0
  | some b => sumQuantities b.get_all_vegetables

/-- `StorageSystem.quicksort_by_expiration` (storage_system.py:191-202), with a
fuel parameter so that the recursion is structural (the Python function recurses
on the strict-less and strict-greater partitions, each strictly shorter than the
input whenever the recursive case is taken, so `l.length` fuel always
suffices). -/
def quicksortFuel : Nat → List Vegetable → List Vegetable
  | 0, l => l
  | fuel + 1, l =>
    if h : l.length ≤ 1 then l
    else
      let pivot := l.get ⟨l.length / 2, by omega⟩
      let pivot_days := pivot.days_until_expiry
      let left := l.filter (fun x => x.days_until_expiry < pivot_days)
      let middle := l.filter (fun x => x.days_until_expiry = pivot_days)
      let right := l.filter (fun x => pivot_days < x.days_until_expiry)
      quicksortFuel fuel left ++ middle ++ quicksortFuel fuel right

/-- `StorageSystem.quicksort_by_expiration`: soonest expiry first. -/
def quicksort_by_expiration (l : List Vegetable) : List Vegetable :=
  quicksortFuel l.length l

/-- `StorageSystem._auto_sort_bin_by_expiration` (storage_system.py:178-189).
The sorted list is assigned to the attribute `vegetables` of the bin object
(`self.bins[bin_id].vegetables = sorted_vegetables`, line 188); the `contents`
attribute that `get_all_vegetables` returns is not touched. -/
def auto_sort_bin_by_expiration (s : SysState) (bin_id : String) : SysState :=
  match lookupBin s bin_id with
  | none => s
  | some b =>
    if b.get_all_vegetables.length ≤ 1 then s
    else
      s.setBin bin_id
        { b with vegetables := some (quicksort_by_expiration b.get_all_vegetables) }

/-- Loop body of `StorageSystem._auto_remove_expired_vegetables`
(storage_system.py:163-169): iterate over a snapshot of the contents; for each
expired entry, record `(name, quantity)` and remove the first item of that name
from the live contents. -/
def autoRemoveLoop : List Vegetable → List Vegetable → List (String × Int) →
    List Vegetable × List (String × Int)
  | contents, [], removed => (contents, removed)
  | contents, v :: pending, removed =>
    if v.days_until_expiry ≤ 0 then
      autoRemoveLoop (removeFirstByName contents v.name).1 pending
        (removed ++ [(v.name, v.quantity)])
    else
      autoRemoveLoop contents pending removed

/-- `StorageSystem._auto_remove_expired_vegetables` (storage_system.py:154-176).
Returns the new state and the removed `(name, quantity)` report list. -/
def auto_remove_expired_vegetables (s : SysState) (bin_id : String) :
    SysState × List (String × Int) :=
  match lookupBin s bin_id with
  | none => (s, [])
  | some b =>
    let r := autoRemoveLoop b.get_all_vegetables b.get_all_vegetables []
    (s.setBin bin_id { b with contents := r.1 }, r.2)

/-- `StorageSystem._check_fifo_warnings` (storage_system.py:204-236).  The only
state change is the expiry sweep (`_auto_remove_expired_vegetables`); the
remainder of the function partitions the survivors into warning groups and
dispatches message boxes (side-effect-free on engine state). -/
def check_fifo_warnings (s : SysState) (bin_id : String) : SysState :=
  if ¬ s.hasBin bin_id then s
  else (auto_remove_expired_vegetables s bin_id).1

/-- `StorageSystem.add_vegetable_to_bin` (storage_system.py:123-152): unknown
bin fails; then the engine's quantity-sum capacity pre-check; then the bin-level
append (which has its own record-count check); on a successful append the bin is
re-sorted and the expiry sweep/warning check runs. -/
def add_vegetable_to_bin (s : SysState) (bin_id : String) (v : Vegetable) :
    SysState × Bool :=
  match lookupBin s bin_id with
  | none => (s, false)
  | some b =>
    let current_capacity := get_current_capacity s bin_id
    if b.max_capacity < current_capacity + v.quantity then (s, false)
    else
      let r := b.add_vegetable v
      let s1 := s.setBin bin_id r.1
      if r.2 then
        let s2 := auto_sort_bin_by_expiration s1 bin_id
        let s3 := check_fifo_warnings s2 bin_id
        (s3, true)
      else
        (s1, false)

/-- `StorageSystem.remove_vegetable_from_bin` (storage_system.py:336-350). -/
def remove_vegetable_from_bin (s : SysState) (bin_id name : String) :
    SysState × Bool :=
  match lookupBin s bin_id with
  | none => (s, false)
  | some b =>
    let r := b.remove_vegetable name
    let s1 := s.setBin bin_id r.1
    if r.2 then
      let s2 := auto_sort_bin_by_expiration s1 bin_id
      (check_fifo_warnings s2 bin_id, true)
    else
      (s1, false)

/-- Models the in-place mutation `target_vegetable.quantity -= actual`
(storage_system.py:400): decrement the quantity of the first list element that
is (structurally) the target object.  Observable state only exposes the
multiset of records, so decrementing the first structurally identical record is
extensionally the Python object mutation. -/
def decFirstEq : List Vegetable → Vegetable → Int → List Vegetable
  | [], _, _ => []
  | v :: rest, t, d =>
    if v = t then { v with quantity := v.quantity - d } :: rest
    else v :: decFirstEq rest t d

/-- Python's `str.lower()` (character-wise lowercasing; the names in play are
ASCII). -/
def strLower (s : String) : String :=
  String.mk (s.toList.map Char.toLower)

/-- `StorageSystem.take_out_vegetable_quantity` (storage_system.py:352-410).
The target is the first item of the expiry-sorted view whose name matches the
request case-insensitively; the whole-item removal path re-matches by the
*requested* name, case-sensitively, via `StorageBin.remove_vegetable`.  Returns
the new state and the Python return value (units reported taken). -/
def take_out_vegetable_quantity (s : SysState) (bin_id vegetable_name : String)
    (quantity_to_take : Int) : SysState × Int :=
  match lookupBin s bin_id with
  | none => (s, 0)
  | some b =>
    let sorted_vegetables := quicksort_by_expiration b.get_all_vegetables
    match sorted_vegetables.find?
        (fun veg => strLower veg.name = strLower vegetable_name) with
    | none => (s, 0)
    | some target =>
      if quantity_to_take ≤ 0 then (s, 0)
      else
        let available_quantity := target.quantity
        let actual_quantity_taken := min quantity_to_take available_quantity
        if available_quantity ≤ quantity_to_take then
          let r := b.remove_vegetable vegetable_name
          if r.2 then
            let s1 := s.setBin bin_id r.1
            let s2 := auto_sort_bin_by_expiration s1 bin_id
            (check_fifo_warnings s2 bin_id, actual_quantity_taken)
          else
            (s, 0)
        else
          let b2 := { b with contents := decFirstEq b.contents target actual_quantity_taken }
          let s1 := s.setBin bin_id b2
          let s2 := auto_sort_bin_by_expiration s1 bin_id
          (check_fifo_warnings s2 bin_id, actual_quantity_taken)

/-- Return record of `StorageSystem.get_bin_status` (storage_system.py:429-443). -/
structure BinStatus where
  bin_id : String
  current_capacity : Int
  max_capacity : Int
  available_capacity : Int
  vegetable_count : Nat
  at_capacity : Bool
deriving Repr, DecidableEq

/-- `StorageSystem.get_bin_status` (storage_system.py:429-443). -/
def get_bin_status (s : SysState) (bin_id : String) : Option BinStatus :=
  match lookupBin s bin_id with
  | none => none
  | some b =>
    let current_capacity := get_current_capacity s bin_id
    some
      { bin_id := bin_id
        current_capacity := current_capacity
        max_capacity := b.max_capacity
        available_capacity := b.max_capacity - current_capacity
        vegetable_count := b.get_all_vegetables.length
        at_capacity := b.max_capacity ≤ current_capacity }

/-- `StorageSystem.quicksort_by_freshness` (storage_system.py:493-501): a
textual re-implementation of the same three-way quicksort keyed on
`days_until_expiry`; behaviourally identical to `quicksort_by_expiration`. -/
def quicksort_by_freshness (l : List Vegetable) : List Vegetable :=
  quicksortFuel l.length l

/-- `StorageSystem.get_bin_contents` (storage_system.py:461-470); the Python
defaults are `sort_by_expiration=True, sort_by_freshness=False`. -/
def get_bin_contents (s : SysState) (bin_id : String)
    (sort_by_expiration sort_by_freshness : Bool) : List Vegetable :=
  match lookupBin s bin_id with
  | none => []
  | some b =>
    if sort_by_expiration then quicksort_by_expiration b.get_all_vegetables
    else if sort_by_freshness then quicksort_by_freshness b.get_all_vegetables
    else b.get_all_vegetables

set_option linter.unusedVariables false in
/-- `StorageSystem.update_bin_conditions` (storage_system.py:525-553).  For an
unknown bin the call returns `False`.  For an existing bin the function first
reads `bin_obj.temperature` (line 533); `StorageBin` only defines
`current_temperature`, and no code path ever assigns `temperature` (the sole
assignment on line 548 sits after this read), so the read raises
`AttributeError` unconditionally. -/
def update_bin_conditions (s : SysState) (bin_id : String)
    (new_temp new_humidity : Option Int) : Except PyErr (SysState × Bool) :=
  match lookupBin s bin_id with
  | none => Except.ok (s, false)
  | some _ => Except.error PyErr.attributeError

/-- Entry of the `vegetable_profiles` table (storage_system.py:37-43). -/
structure VegProfile where
  optimal_temp : Int
  optimal_humidity : Int
  shelf_life : Int
deriving Repr, DecidableEq

/-- `StorageSystem.vegetable_profiles` (storage_system.py:37-43), in dict
insertion order. -/
def vegetable_profiles : List (String × VegProfile) :=
  [("Tomato", ⟨12, 85, 7⟩),
   ("Lettuce", ⟨2, 95, 10⟩),
   ("Carrot", ⟨0, 98, 21⟩),
   ("Potato", ⟨7, 90, 30⟩),
   ("Broccoli", ⟨0, 95, 14⟩)]

/-- `set(name.lower())`: the set of lower-cased characters of a string, as a
duplicate-free list (first occurrences kept; only cardinalities matter). -/
def charSet (s : String) : List Char :=
  (s.toList.map Char.toLower).eraseDups

/-- `len(set1.intersection(set2))` (storage_system.py:506): size of the
character-set intersection. -/
def simNum (name1 name2 : String) : Nat :=
  ((charSet name1).filter (fun c => (charSet name2).contains c)).length

/-- `len(set1.union(set2))` (storage_system.py:507): size of the character-set
union. -/
def simDen (name1 name2 : String) : Nat :=
  ((charSet name1 ++ charSet name2).eraseDups).length

/-- `StorageSystem._calculate_name_similarity` (storage_system.py:503-508):
Jaccard similarity `len(intersection) / len(union)` of the lower-cased
character sets, `0` when the union is empty (`if union else 0`). -/
def calculate_name_similarity (name1 name2 : String) : ℚ :=
  if simDen name1 name2 = 0 then 0
  else (simNum name1 name2 : ℚ) / (simDen name1 name2 : ℚ)

/-- One step of the stable descending sort used for
`similarities.sort(reverse=True, key=lambda x: x[0])`
(storage_system.py:479): insert `x` before the first entry whose similarity is
strictly below `x`'s, so entries with equal keys keep their original relative
order (Python's sort is stable). -/
def insortDesc (x : ℚ × String × VegProfile) :
    List (ℚ × String × VegProfile) → List (ℚ × String × VegProfile)
  | [] => [x]
  | y :: ys => if x.1 < y.1 then y :: insortDesc x ys else x :: y :: ys

/-- Stable sort of similarity entries, descending by similarity
(storage_system.py:479). -/
def sortDescBySim : List (ℚ × String × VegProfile) → List (ℚ × String × VegProfile)
  | [] => []
  | x :: xs => insortDesc x (sortDescBySim xs)

/-- Return record of `recommend_storage_conditions`: the three profile fields
(rationals, since the weighted averages divide). -/
structure RecommendOut where
  optimal_temp : ℚ
  optimal_humidity : ℚ
  shelf_life : ℚ
deriving Repr, DecidableEq

/-- Round-half-to-even to an integer (the tie rule of Python's `round`).
Python's `round` acts on binary floats; the embedding computes the same
rounding on exact rationals. -/
def roundHalfEven (q : ℚ) : Int :=
  let f := ⌊q⌋
  if q - f < 1 / 2 then f
  else if (1 : ℚ) / 2 < q - f then f + 1
  else if f % 2 = 0 then f else f + 1

/-- `round(x, 1)` (storage_system.py:488-490) on exact rationals. -/
def pyRound1 (q : ℚ) : ℚ :=
  (roundHalfEven (10 * q) : ℚ) / 10

/-- `StorageSystem.recommend_storage_conditions` (storage_system.py:472-491).
An exact profile key is returned verbatim; otherwise the profiles are ranked by
name similarity (stable, descending), the top 3 are taken, and each field is
the similarity-weighted average divided by the total similarity — a division
that raises `ZeroDivisionError` when every similarity is zero (the source has
no guard on `total_similarity`). -/
def recommend_storage_conditions (vegetable_name : String) :
    Except PyErr RecommendOut :=
  match vegetable_profiles.find? (fun kp => kp.1 = vegetable_name) with
  | some kp =>
    Except.ok ⟨(kp.2.optimal_temp : ℚ), (kp.2.optimal_humidity : ℚ), (kp.2.shelf_life : ℚ)⟩
  | none =>
    let similarities := vegetable_profiles.map
      (fun kp => (calculate_name_similarity vegetable_name kp.1, kp.1, kp.2))
    let sorted := sortDescBySim similarities
    let top_3 := sorted.take 3
    if top_3 = [] then Except.ok ⟨4, 90, 14⟩
    else
      let total_similarity := (top_3.map (·.1)).sum
      if total_similarity = 0 then Except.error PyErr.zeroDivisionError
      else
        Except.ok
          ⟨pyRound1 (((top_3.map (fun e => e.1 * (e.2.2.optimal_temp : ℚ))).sum) / total_similarity),
           pyRound1 (((top_3.map (fun e => e.1 * (e.2.2.optimal_humidity : ℚ))).sum) / total_similarity),
           pyRound1 (((top_3.map (fun e => e.1 * (e.2.2.shelf_life : ℚ))).sum) / total_similarity)⟩

/-!
Aliasing model for `StorageBin.get_all_vegetables` (storage_bin.py:22-23).
The Python method is `return self.contents`: it returns the bin's own list
object, not a copy.  To state what happens when a caller mutates the returned
sequence, lists are modelled as heap-allocated objects: a heap maps references
to list values, a bin holds a reference, and `get_all_vegetables` returns that
same reference.
-/

namespace AliasModel

/-- A reference to a Python list object. -/
abbrev Ref := Nat

/-- The heap of list objects: position `r` holds the list value of reference `r`. -/
abbrev Heap := List (List Vegetable)

/-- A `StorageBin` object as far as aliasing is concerned: it holds a reference
to its `contents` list object. -/
structure BinObj where
  contentsRef : Ref
deriving Repr, DecidableEq

/-- `StorageBin.get_all_vegetables`: `return self.contents` returns the
reference to the internal list object itself (no copy is made). -/
def get_all_vegetables (b : BinObj) : Ref :=
  b.contentsRef

/-- Read the list value a reference denotes. -/
def readRef : Heap → Ref → List Vegetable
  | [], _ => []
  | l :: _, 0 => l
  | _ :: h, r + 1 => readRef h r

/-- Mutate the list object a reference denotes (e.g. `lst.append(x)` or
`lst.remove(x)` performed by the caller on the returned sequence). -/
def writeRef : Heap → Ref → List Vegetable → Heap
  | [], _, _ => []
  | _ :: h, 0, l => l :: h
  | x :: h, r + 1, l => x :: writeRef h r l

end AliasModel

/-- Well-formedness of a single bin: the capacity invariant plus the spec's
data-model constraints (`quantity > 0` for every held item, non-negative
capacity). -/
def BinWf (b : StorageBin) : Prop :=
  sumQuantities b.contents ≤ b.max_capacity ∧ 0 ≤ b.max_capacity ∧
    ∀ v ∈ b.contents, 1 ≤ v.quantity

/-- Well-formedness of the whole registry. -/
def StateWf (s : SysState) : Prop :=
  ∀ p ∈ s.bins, BinWf p.2

/-- Engine states reachable from the empty system through the public mutating
operations (including the expiry sweep triggered by the status queries).
Per the spec's data model, callers create bins with a non-negative unit cap and
add items with `quantity > 0`; all other arguments are arbitrary. -/
inductive Reachable : SysState → Prop where
  | init : Reachable SysState.init
  | create (s : SysState) (bin_id : String) (max_capacity temp humidity : Int) :
      Reachable s → 0 ≤ max_capacity →
      Reachable (create_bin s bin_id max_capacity temp humidity).1
  | add (s : SysState) (bin_id : String) (v : Vegetable) :
      Reachable s → 1 ≤ v.quantity →
      Reachable (add_vegetable_to_bin s bin_id v).1
  | remove (s : SysState) (bin_id name : String) :
      Reachable s →
      Reachable (remove_vegetable_from_bin s bin_id name).1
  | takeOut (s : SysState) (bin_id name : String) (qty : Int) :
      Reachable s →
      Reachable (take_out_vegetable_quantity s bin_id name qty).1
  | fifoCheck (s : SysState) (bin_id : String) :
      Reachable s →
      Reachable (check_fifo_warnings s bin_id)

/-! Concrete scenario values used by the witnesses and counterexamples. -/

/-- A 6-unit item, 5 days from expiry (spec Scenario C). -/
def vegsix : Vegetable := ⟨"Cabbage", 6, 2, 90, 5⟩

/-- A 5-unit item whose admission must be rejected at capacity 10. -/
def vegfive : Vegetable := ⟨"Kale", 5, 2, 90, 4⟩

/-- State of Scenario C after `create_bin("A", 10, 2, 90)` and adding `vegsix`. -/
def stateScenC : SysState :=
  (add_vegetable_to_bin (create_bin SysState.init "A" 10 2 90).1 "A" vegsix).1

/-- The bin value Scenario C leaves in the registry. -/
def binScenC : StorageBin := ⟨"A", 10, 2, 90, [vegsix], none⟩

/-- Item expiring in 5 days (sort counterexample). -/
def vegLate : Vegetable := ⟨"X", 1, 2, 90, 5⟩

/-- Item expiring in 1 day (sort counterexample). -/
def vegSoon : Vegetable := ⟨"Y", 1, 2, 90, 1⟩

/-- State after creating bin "A" (cap 10, safe) and adding `vegLate` then
`vegSoon` — two mutating engine calls, ending with a 2-item bin. -/
def stateSortBug : SysState :=
  (add_vegetable_to_bin
    (add_vegetable_to_bin (create_bin SysState.init "A" 10 2 90).1 "A" vegLate).1
    "A" vegSoon).1

/-- A 2-unit "Tomato" one day from expiry (withdrawal counterexample). -/
def vegTomatoTwo : Vegetable := ⟨"Tomato", 2, 5, 90, 1⟩

/-- A bin holding only `vegTomatoTwo`. -/
def stateTakeOut : SysState :=
  ⟨[("A", ⟨"A", 10, 5, 90, [vegTomatoTwo], none⟩)]⟩

/-- Unexpired "Tom" lot, 5 days left (expiry-sweep counterexample). -/
def vegTomFresh : Vegetable := ⟨"Tom", 1, 5, 90, 5⟩

/-- Expired "Tom" lot, 0 days left (expiry-sweep counterexample). -/
def vegTomExpired : Vegetable := ⟨"Tom", 1, 5, 90, 0⟩

/-- A bin holding two same-named lots: the unexpired one first, the expired one
second. -/
def stateSweep : SysState :=
  ⟨[("B", ⟨"B", 10, 5, 90, [vegTomFresh, vegTomExpired], none⟩)]⟩

/-- A bin whose `max_capacity` is 0: its record count (0) is not below its
`max_capacity`, so the bin-level record check fires. -/
def binRecordFull : StorageBin := ⟨"A", 0, 5, 90, [], none⟩

/-- Heap with a single list object holding `vegTomatoTwo` (aliasing scenario). -/
def heapZero : AliasModel.Heap := [[vegTomatoTwo]]

/-- Bin object whose contents live at reference 0 (aliasing scenario). -/
def binObjZero : AliasModel.BinObj := ⟨0⟩

/-! ## Helper lemmas -/

/-- A list of items each holding at least one unit has record count bounded by
its total quantity. -/
theorem length_le_sumQuantities (l : List Vegetable)
    (h : ∀ v ∈ l, 1 ≤ v.quantity) : (l.length : Int) ≤ sumQuantities l := by
  induction l with
  | nil => simp [sumQuantities]
  | cons v rest ih =>
    have hv := h v (by simp)
    have hr := ih (fun u hu => h u (by simp [hu]))
    simp only [sumQuantities, List.map_cons, List.sum_cons, List.length_cons] at hr ⊢
    push_cast
    omega

/-- Writing through a live reference is visible at that reference. -/
theorem AliasModel.readRef_writeRef (h : AliasModel.Heap) (r : AliasModel.Ref)
    (l : List Vegetable) (hr : r < h.length) :
    AliasModel.readRef (AliasModel.writeRef h r l) r = l := by
  induction h generalizing r with
  | nil => simp at hr
  | cons x t ih =>
    cases r with
    | zero => rfl
    | succ n => exact ih n (by simpa using hr)

/-! ## Claim theorems -/

/-- C6: any `create_bin` request whose temperature exceeds `MAX_SAFE_TEMP` or
whose humidity exceeds `MAX_SAFE_HUMIDITY` fails with the unsafe-environment
outcome and leaves the registry unchanged, for every starting state — in
particular also when the requested bin id already exists, since the safety gate
is evaluated before the duplicate check. -/
theorem C6_create_bin_unsafe_before_duplicate (s : SysState) (bin_id : String)
    (max_capacity temp humidity : Int)
    (h : MAX_SAFE_TEMP < temp ∨ MAX_SAFE_HUMIDITY < humidity) :
    create_bin s bin_id max_capacity temp humidity
      = (s, CreateResult.unsafeEnvironment) := by
  have hfalse : is_environment_safe temp humidity = false := by
    simp only [is_environment_safe, MAX_SAFE_TEMP, MAX_SAFE_HUMIDITY] at h ⊢
    rcases h with h | h
    · simp [show ¬(temp ≤ 15) from by omega]
    · simp [show ¬(humidity ≤ 98) from by omega]
  unfold create_bin
  simp [hfalse]

/-- Witness for C6, at spec Scenario A strengthened with a duplicate id: with
bin "A" already registered, `create_bin("A", 100, 20, 99)` reports the unsafe
environment, not the duplicate, and the registry is untouched. -/
theorem C6_create_bin_unsafe_before_duplicate_witness :
    (create_bin SysState.init "A" 100 10 90).1.hasBin "A" = true ∧
      create_bin (create_bin SysState.init "A" 100 10 90).1 "A" 100 20 99
        = ((create_bin SysState.init "A" 100 10 90).1, CreateResult.unsafeEnvironment) :=
  ⟨by decide,
    C6_create_bin_unsafe_before_duplicate _ "A" 100 20 99 (Or.inl (by decide))⟩

/-- C8 (counterexample): `StorageBin.add_vegetable` is not an unconditional
append — on a bin whose record count is not strictly below `max_capacity`
(here an empty bin with `max_capacity = 0`) it refuses the item and returns
`False` (storage_bin.py:10-13). -/
theorem C8_counterexample_record_check :
    StorageBin.add_vegetable binRecordFull vegTomatoTwo = (binRecordFull, false) := by
  decide

/-- C8 (amended): `StorageBin.add_vegetable` does perform its own record-count
capacity check, but whenever the engine's quantity-sum pre-check admits an item
with positive quantity into a bin whose items all have positive quantity, that
record-count check necessarily passes, so the bin appends and returns `True`
and the engine's pre-check remains the only effective barrier to storage. -/
theorem C8_add_vegetable_amended (b : StorageBin) (v : Vegetable)
    (hq : ∀ u ∈ b.contents, 1 ≤ u.quantity) (hv : 1 ≤ v.quantity)
    (hcap : sumQuantities b.contents + v.quantity ≤ b.max_capacity) :
    StorageBin.add_vegetable b v = ({ b with contents := b.contents ++ [v] }, true) := by
  unfold StorageBin.add_vegetable
  have hlen := length_le_sumQuantities b.contents hq
  rw [if_pos (by omega)]

/-- Witness for the amended C8: a 10-cap bin holding 2 units accepts a 6-unit
item. -/
theorem C8_add_vegetable_amended_witness :
    StorageBin.add_vegetable ⟨"A", 10, 5, 90, [vegTomatoTwo], none⟩ vegsix
      = (⟨"A", 10, 5, 90, [vegTomatoTwo, vegsix], none⟩, true) :=
  C8_add_vegetable_amended ⟨"A", 10, 5, 90, [vegTomatoTwo], none⟩ vegsix
    (by decide) (by decide) (by decide)

/-- C10: for a bin id absent from the registry, the query operations return
neutral values — `get_bin_status` returns `None`, `get_current_capacity`
returns 0, `get_bin_contents` (with its default arguments) returns the empty
list — and, being pure functions of the state, none of them mutate it. -/
theorem C10_unknown_bin_neutral (s : SysState) (bin_id : String)
    (h : lookupBin s bin_id = none) :
    get_bin_status s bin_id = none ∧ get_current_capacity s bin_id = 0 ∧
      get_bin_contents s bin_id true false = [] := by
  refine ⟨?_, ?_, ?_⟩ <;>
    simp [get_bin_status, get_current_capacity, get_bin_contents, h]

/-- Witness for C10 at the empty system and bin id "Z". -/
theorem C10_unknown_bin_neutral_witness :
    get_bin_status SysState.init "Z" = none ∧
      get_current_capacity SysState.init "Z" = 0 ∧
      get_bin_contents SysState.init "Z" true false = [] :=
  C10_unknown_bin_neutral SysState.init "Z" (by decide)

/-- C2 (code bug): after two mutating `add_vegetable_to_bin` calls the 2-item
bin's `get_all_vegetables` lists days-until-expiry `[5, 1]` — a strictly
decreasing sequence, not the claimed non-decreasing FIFO order — because
`_auto_sort_bin_by_expiration` writes the sorted list to the dead attribute
`vegetables` (storage_system.py:188) while `get_all_vegetables` reads
`contents` (storage_bin.py:23). -/
theorem C2_sort_writes_dead_attribute :
    ((lookupBin stateSortBug "A").map
        (fun b => b.get_all_vegetables.map (·.days_until_expiry))) = some [5, 1] ∧
      ((lookupBin stateSortBug "A").map (fun b => b.vegetables)) =
        some (some [vegSoon, vegLate]) ∧
      ¬ (5 : Int) ≤ 1 := by
  decide

/-- C3 (code bug): with bin "A" holding a single "Tomato" lot of 2 units,
`take_out_vegetable_quantity("A", "tomato", 10)` finds the lot
case-insensitively but then re-matches the *requested* name case-sensitively in
`StorageBin.remove_vegetable`, so the removal fails: the call returns 0 — not
`min(10, 2) = 2` — and the lot stays in the bin (state unchanged). -/
theorem C3_takeout_case_mismatch :
    take_out_vegetable_quantity stateTakeOut "A" "tomato" 10 = (stateTakeOut, 0) ∧
      (0 : Int) ≠ min 10 2 := by
  decide

/-- C7 (code bug): on a bin holding an unexpired "Tom" lot before an expired
"Tom" lot, the expiry sweep removes the *unexpired* lot (removal is by first
name match), leaves the expired lot in place, and a second consecutive sweep
therefore removes and reports it instead of returning the empty list:
`_auto_remove_expired_vegetables` is not idempotent. -/
theorem C7_sweep_not_idempotent :
    (auto_remove_expired_vegetables stateSweep "B").2 = [("Tom", 1)] ∧
      (auto_remove_expired_vegetables
          (auto_remove_expired_vegetables stateSweep "B").1 "B").2 = [("Tom", 1)] ∧
      ([("Tom", (1 : Int))] : List (String × Int)) ≠ [] := by
  decide

/-- C5 (code bug): for every existing bin, `update_bin_conditions` raises
`AttributeError` before reaching the safety check, because it reads
`bin_obj.temperature` (storage_system.py:533) while `StorageBin` only defines
`current_temperature` (storage_bin.py:5) and no code path ever assigns
`temperature`.  The claimed graceful unsafe-environment failure is
unreachable. -/
theorem C5_update_always_raises (s : SysState) (bin_id : String)
    (new_temp new_humidity : Option Int)
    (h : (lookupBin s bin_id).isSome = true) :
    update_bin_conditions s bin_id new_temp new_humidity
      = Except.error PyErr.attributeError := by
  unfold update_bin_conditions
  cases hl : lookupBin s bin_id with
  | none => rw [hl] at h; simp at h
  | some b => rfl

/-- Witness for C5: updating existing bin "A" raises. -/
theorem C5_update_always_raises_witness :
    update_bin_conditions stateTakeOut "A" (some 20) none
      = Except.error PyErr.attributeError :=
  C5_update_always_raises stateTakeOut "A" (some 20) none (by decide)

/-- C9 (counterexample): `get_all_vegetables` hands out the bin's own list
object, so appending to the returned sequence changes the bin's contents —
the returned value is not an independent snapshot. -/
theorem C9_counterexample_not_snapshot :
    AliasModel.readRef
        (AliasModel.writeRef heapZero (AliasModel.get_all_vegetables binObjZero)
          (AliasModel.readRef heapZero (AliasModel.get_all_vegetables binObjZero) ++ [vegsix]))
        binObjZero.contentsRef
      ≠ AliasModel.readRef heapZero binObjZero.contentsRef := by
  decide

/-- C9 (amended): `StorageBin.get_all_vegetables` returns the internal list by
reference (`return self.contents`), so every mutation performed through the
returned sequence is exactly a mutation of the Bin's contents. -/
theorem C9_get_all_vegetables_aliases (h : AliasModel.Heap) (b : AliasModel.BinObj)
    (l : List Vegetable) (hr : b.contentsRef < h.length) :
    AliasModel.readRef (AliasModel.writeRef h (AliasModel.get_all_vegetables b) l)
        b.contentsRef = l :=
  AliasModel.readRef_writeRef h b.contentsRef l hr

/-- Witness for the amended C9: clearing the returned sequence clears the bin. -/
theorem C9_get_all_vegetables_aliases_witness :
    AliasModel.readRef
        (AliasModel.writeRef heapZero (AliasModel.get_all_vegetables binObjZero) [])
        binObjZero.contentsRef = [] :=
  C9_get_all_vegetables_aliases heapZero binObjZero [] (by decide)

/-! ## Capacity invariant machinery (C1) -/

/-- Removing the first name match yields a sublist of the original contents. -/
theorem removeFirstByName_sublist (l : List Vegetable) (n : String) :
    List.Sublist (removeFirstByName l n).1 l := by
  induction l with
  | nil => simp [removeFirstByName]
  | cons v rest ih =>
    unfold removeFirstByName
    by_cases hv : v.name = n
    · simp only [hv, if_pos rfl]
      exact (List.Sublist.refl rest).cons v
    · simpa [hv] using ih.cons₂ v

/-- The expiry-sweep loop only removes items: its final contents are a sublist
of the contents it starts from. -/
theorem autoRemoveLoop_sublist (pending contents : List Vegetable)
    (removed : List (String × Int)) :
    List.Sublist (autoRemoveLoop contents pending removed).1 contents := by
  induction pending generalizing contents removed with
  | nil => simp [autoRemoveLoop]
  | cons v rest ih =>
    unfold autoRemoveLoop
    by_cases hv : v.days_until_expiry ≤ 0
    · simp only [if_pos hv]
      exact (ih _ _).trans (removeFirstByName_sublist contents v.name)
    · simp only [if_neg hv]
      exact ih _ _

/-- Total quantity is monotone under sublists of non-negative quantities. -/
theorem sumQuantities_sublist (l₁ l₂ : List Vegetable) (h : List.Sublist l₁ l₂)
    (hq : ∀ v ∈ l₂, 0 ≤ v.quantity) : sumQuantities l₁ ≤ sumQuantities l₂ := by
  induction h with
  | slnil => simp [sumQuantities]
  | cons a h ih =>
    have ha := hq a (by simp)
    have hr := ih (fun v hv => hq v (by simp [hv]))
    simp only [sumQuantities, List.map_cons, List.sum_cons] at hr ⊢
    omega
  | cons₂ a h ih =>
    have hr := ih (fun v hv => hq v (by simp [hv]))
    simp only [sumQuantities, List.map_cons, List.sum_cons] at hr ⊢
    omega

/-- Decrementing one record by a non-negative amount cannot increase the total
quantity. -/
theorem sumQuantities_decFirstEq (l : List Vegetable) (t : Vegetable) (d : Int)
    (hd : 0 ≤ d) : sumQuantities (decFirstEq l t d) ≤ sumQuantities l := by
  induction l with
  | nil => simp [decFirstEq]
  | cons v rest ih =>
    unfold decFirstEq
    by_cases hv : v = t
    · simp only [if_pos hv, sumQuantities, List.map_cons, List.sum_cons]
      omega
    · simp only [if_neg hv, sumQuantities, List.map_cons, List.sum_cons] at ih ⊢
      omega

/-- A partial withdrawal strictly below the target's stock keeps every record's
quantity positive. -/
theorem decFirstEq_mem_quantity (l : List Vegetable) (t : Vegetable) (d : Int)
    (hq : ∀ v ∈ l, 1 ≤ v.quantity) (hd : d + 1 ≤ t.quantity) :
    ∀ v ∈ decFirstEq l t d, 1 ≤ v.quantity := by
  induction l with
  | nil => simp [decFirstEq]
  | cons v rest ih =>
    unfold decFirstEq
    by_cases hv : v = t
    · simp only [if_pos hv]
      intro u hu
      rcases List.mem_cons.mp hu with h1 | h2
      · subst h1
        simp only [hv]
        omega
      · exact hq u (by simp [h2])
    · simp only [if_neg hv]
      intro u hu
      rcases List.mem_cons.mp hu with h1 | h2
      · exact h1 ▸ hq v (by simp)
      · exact ih (fun w hw => hq w (by simp [hw])) u h2

/-- A dictionary write of a well-formed bin preserves registry
well-formedness. -/
theorem StateWf_setBin (s : SysState) (bin_id : String) (b : StorageBin)
    (hs : StateWf s) (hb : BinWf b) : StateWf (s.setBin bin_id b) := by
  intro p hp
  simp only [SysState.setBin, dictSet] at hp
  split at hp
  · rcases List.mem_map.mp hp with ⟨q, hq, hpq⟩
    by_cases h1 : q.1 = bin_id
    · simp only [if_pos h1] at hpq
      rw [← hpq]
      exact hb
    · simp only [if_neg h1] at hpq
      rw [← hpq]
      exact hs q hq
  · rcases List.mem_append.mp hp with h1 | h2
    · exact hs p h1
    · simp only [List.mem_singleton] at h2
      rw [h2]
      exact hb

/-- A successful lookup exposes a registry entry. -/
theorem lookupBin_mem (s : SysState) (bin_id : String) (b : StorageBin)
    (h : lookupBin s bin_id = some b) : (bin_id, b) ∈ s.bins := by
  unfold lookupBin at h
  cases hf : s.bins.find? (fun p => p.1 = bin_id) with
  | none => rw [hf] at h; simp at h
  | some p =>
    rw [hf] at h
    dsimp only [Option.map] at h
    have hmem := List.mem_of_find?_eq_some hf
    have hpred := List.find?_some hf
    simp only [decide_eq_true_eq] at hpred
    have hp : p = (bin_id, b) := by
      cases p
      simp only [Option.some.injEq] at h
      simp only [h]
      simp
      exact hpred
    rw [← hp]
    exact hmem

/-- Every bin a well-formed registry serves up is well-formed. -/
theorem BinWf_of_lookup (s : SysState) (bin_id : String) (b : StorageBin)
    (hs : StateWf s) (h : lookupBin s bin_id = some b) : BinWf b :=
  hs (bin_id, b) (lookupBin_mem s bin_id b h)

/-- `create_bin` with a non-negative cap preserves well-formedness. -/
theorem StateWf_create (s : SysState) (bin_id : String) (cap temp hum : Int)
    (hs : StateWf s) (hcap : 0 ≤ cap) :
    StateWf (create_bin s bin_id cap temp hum).1 := by
  unfold create_bin
  split
  · exact hs
  · split
    · exact hs
    · intro p hp
      rcases List.mem_append.mp hp with h1 | h2
      · exact hs p h1
      · simp only [List.mem_singleton] at h2
        rw [h2]
        refine ⟨?_, hcap, ?_⟩
        · simpa [StorageBin.init, sumQuantities] using hcap
        · simp [StorageBin.init]

/-- The dead-attribute sort preserves well-formedness (it changes neither the
contents nor the cap of any bin). -/
theorem StateWf_auto_sort (s : SysState) (bin_id : String) (hs : StateWf s) :
    StateWf (auto_sort_bin_by_expiration s bin_id) := by
  unfold auto_sort_bin_by_expiration
  cases hl : lookupBin s bin_id with
  | none => exact hs
  | some b =>
    dsimp only
    split
    · exact hs
    · exact StateWf_setBin _ _ _ hs (BinWf_of_lookup s bin_id b hs hl)

/-- The expiry sweep preserves well-formedness. -/
theorem StateWf_auto_remove (s : SysState) (bin_id : String) (hs : StateWf s) :
    StateWf (auto_remove_expired_vegetables s bin_id).1 := by
  unfold auto_remove_expired_vegetables
  cases hl : lookupBin s bin_id with
  | none => exact hs
  | some b =>
    dsimp only
    obtain ⟨h1, h2, h3⟩ := BinWf_of_lookup s bin_id b hs hl
    have hsub := autoRemoveLoop_sublist b.get_all_vegetables b.get_all_vegetables []
    apply StateWf_setBin _ _ _ hs
    refine ⟨?_, h2, fun v hv => h3 v (hsub.subset hv)⟩
    exact le_trans
      (sumQuantities_sublist _ _ hsub (fun v hv => by have := h3 v hv; omega)) h1

/-- The FIFO status check (whose only state change is the expiry sweep)
preserves well-formedness. -/
theorem StateWf_check_fifo (s : SysState) (bin_id : String) (hs : StateWf s) :
    StateWf (check_fifo_warnings s bin_id) := by
  unfold check_fifo_warnings
  split
  · exact hs
  · exact StateWf_auto_remove s bin_id hs

/-- `add_vegetable_to_bin` with a positive-quantity item preserves
well-formedness: the engine pre-check bounds the new total. -/
theorem StateWf_add (s : SysState) (bin_id : String) (v : Vegetable)
    (hs : StateWf s) (hv : 1 ≤ v.quantity) :
    StateWf (add_vegetable_to_bin s bin_id v).1 := by
  unfold add_vegetable_to_bin
  cases hl : lookupBin s bin_id with
  | none => exact hs
  | some b =>
    dsimp only
    obtain ⟨h1, h2, h3⟩ := BinWf_of_lookup s bin_id b hs hl
    have hcapeq : get_current_capacity s bin_id = sumQuantities b.get_all_vegetables := by
      unfold get_current_capacity
      rw [hl]
    split
    · exact hs
    · rename_i hover
      rw [hcapeq] at hover
      unfold StorageBin.add_vegetable
      by_cases hrec : (b.contents.length : Int) < b.max_capacity
      · rw [if_pos hrec]
        dsimp only
        have hbw : BinWf { b with contents := b.contents ++ [v] } := by
          refine ⟨?_, h2, ?_⟩
          · simp only [StorageBin.get_all_vegetables] at hover
            simp only [sumQuantities, List.map_append, List.sum_append,
              List.map_cons, List.map_nil, List.sum_cons, List.sum_nil] at hover ⊢
            omega
          · intro u hu
            rcases List.mem_append.mp hu with hu1 | hu2
            · exact h3 u hu1
            · simp only [List.mem_singleton] at hu2
              rw [hu2]
              exact hv
        exact StateWf_check_fifo _ _ (StateWf_auto_sort _ _ (StateWf_setBin _ _ _ hs hbw))
      · rw [if_neg hrec]
        dsimp only
        exact StateWf_setBin _ _ _ hs ⟨h1, h2, h3⟩

/-- Whole-item removal at the bin level yields a well-formed bin. -/
theorem BinWf_remove_vegetable (b : StorageBin) (name : String) (hb : BinWf b) :
    BinWf (b.remove_vegetable name).1 := by
  obtain ⟨h1, h2, h3⟩ := hb
  unfold StorageBin.remove_vegetable
  dsimp only
  have hsub := removeFirstByName_sublist b.contents name
  refine ⟨?_, h2, fun u hu => h3 u (hsub.subset hu)⟩
  exact le_trans
    (sumQuantities_sublist _ _ hsub (fun u hu => by have := h3 u hu; omega)) h1

/-- `remove_vegetable_from_bin` preserves well-formedness. -/
theorem StateWf_remove (s : SysState) (bin_id name : String) (hs : StateWf s) :
    StateWf (remove_vegetable_from_bin s bin_id name).1 := by
  unfold remove_vegetable_from_bin
  cases hl : lookupBin s bin_id with
  | none => exact hs
  | some b =>
    dsimp only
    have hbw := BinWf_remove_vegetable b name (BinWf_of_lookup s bin_id b hs hl)
    split
    · exact StateWf_check_fifo _ _ (StateWf_auto_sort _ _ (StateWf_setBin _ _ _ hs hbw))
    · exact StateWf_setBin _ _ _ hs hbw

/-- `take_out_vegetable_quantity` preserves well-formedness: full withdrawal
removes a record, partial withdrawal decrements strictly below stock. -/
theorem StateWf_takeOut (s : SysState) (bin_id name : String) (qty : Int)
    (hs : StateWf s) :
    StateWf (take_out_vegetable_quantity s bin_id name qty).1 := by
  unfold take_out_vegetable_quantity
  cases hl : lookupBin s bin_id with
  | none => exact hs
  | some b =>
    dsimp only
    obtain ⟨h1, h2, h3⟩ := BinWf_of_lookup s bin_id b hs hl
    cases hf : (quicksort_by_expiration b.get_all_vegetables).find?
        (fun veg => strLower veg.name = strLower name) with
    | none => exact hs
    | some target =>
      dsimp only
      split
      · exact hs
      · rename_i hqty
        split
        · have hbw := BinWf_remove_vegetable b name ⟨h1, h2, h3⟩
          split
          · exact StateWf_check_fifo _ _ (StateWf_auto_sort _ _ (StateWf_setBin _ _ _ hs hbw))
          · exact hs
        · rename_i hpartial
          have hbw : BinWf
              { b with contents := decFirstEq b.contents target (min qty target.quantity) } := by
            refine ⟨?_, h2, ?_⟩
            · exact le_trans (sumQuantities_decFirstEq _ _ _ (by omega)) h1
            · exact decFirstEq_mem_quantity _ _ _ h3 (by omega)
          exact StateWf_check_fifo _ _ (StateWf_auto_sort _ _ (StateWf_setBin _ _ _ hs hbw))

/-- Every reachable state is well-formed. -/
theorem Reachable_StateWf (s : SysState) (hs : Reachable s) : StateWf s := by
  induction hs with
  | init => intro p hp; simp [SysState.init] at hp
  | create s bin_id cap temp hum hr hcap ih => exact StateWf_create s bin_id cap temp hum ih hcap
  | add s bin_id v hr hv ih => exact StateWf_add s bin_id v ih hv
  | remove s bin_id n hr ih => exact StateWf_remove s bin_id n ih
  | takeOut s bin_id n q hr ih => exact StateWf_takeOut s bin_id n q ih
  | fifoCheck s bin_id hr ih => exact StateWf_check_fifo s bin_id ih

/-- C1: in every reachable engine state, every bin's total stored quantity is
bounded by its `max_capacity`; and `add_vegetable_to_bin` rejects — returning
`False` with the state unchanged — any item whose quantity added to the current
total would exceed the cap.  The induction over `Reachable` covers every other
operation, so none of them pushes a bin's total above the cap. -/
theorem C1_capacity_invariant (s : SysState) (hs : Reachable s) :
    (∀ bin_id b, lookupBin s bin_id = some b →
        sumQuantities b.get_all_vegetables ≤ b.max_capacity) ∧
      (∀ bin_id b v, lookupBin s bin_id = some b →
        b.max_capacity < sumQuantities b.get_all_vegetables + v.quantity →
        add_vegetable_to_bin s bin_id v = (s, false)) := by
  have hw := Reachable_StateWf s hs
  constructor
  · intro bin_id b hl
    exact (BinWf_of_lookup s bin_id b hw hl).1
  · intro bin_id b v hl hover
    unfold add_vegetable_to_bin
    rw [hl]
    dsimp only
    have hcapeq : get_current_capacity s bin_id = sumQuantities b.get_all_vegetables := by
      unfold get_current_capacity
      rw [hl]
    rw [hcapeq]
    rw [if_pos hover]

/-- Witness for C1 at spec Scenario C: after creating bin "A" (cap 10) and
adding a 6-unit item, the invariant holds (6 ≤ 10) and adding a 5-unit item is
rejected with the state unchanged. -/
theorem C1_capacity_invariant_witness :
    sumQuantities binScenC.get_all_vegetables ≤ binScenC.max_capacity ∧
      add_vegetable_to_bin stateScenC "A" vegfive = (stateScenC, false) := by
  have hreach : Reachable stateScenC :=
    Reachable.add (create_bin SysState.init "A" 10 2 90).1 "A" vegsix
      (Reachable.create SysState.init "A" 10 2 90 Reachable.init (by decide))
      (by decide)
  have h := C1_capacity_invariant stateScenC hreach
  exact ⟨h.1 "A" binScenC (by decide), h.2 "A" binScenC vegfive (by decide) (by decide)⟩

/-! ## Recommendation heuristic lemmas (C4) -/

/-- Jaccard similarity is never negative. -/
theorem calculate_name_similarity_nonneg (a b : String) :
    0 ≤ calculate_name_similarity a b := by
  unfold calculate_name_similarity
  split
  · exact le_refl 0
  · exact div_nonneg (Nat.cast_nonneg _) (Nat.cast_nonneg _)

/-- An empty character intersection gives similarity zero. -/
theorem sim_zero_of_num_zero (a b : String) (h : simNum a b = 0) :
    calculate_name_similarity a b = 0 := by
  unfold calculate_name_similarity
  rw [h]
  simp

/-- Inserting into the descending list permutes consing. -/
theorem insortDesc_perm (x : ℚ × String × VegProfile)
    (l : List (ℚ × String × VegProfile)) :
    List.Perm (insortDesc x l) (x :: l) := by
  induction l with
  | nil => exact List.Perm.refl _
  | cons y ys ih =>
    unfold insortDesc
    by_cases h : x.1 < y.1
    · simp only [if_pos h]
      exact (ih.cons y).trans (List.Perm.swap x y ys)
    · simp only [if_neg h]
      exact List.Perm.refl _

/-- The similarity sort permutes its input. -/
theorem sortDescBySim_perm (l : List (ℚ × String × VegProfile)) :
    List.Perm (sortDescBySim l) l := by
  induction l with
  | nil => exact List.Perm.refl _
  | cons x xs ih =>
    unfold sortDescBySim
    exact (insortDesc_perm x (sortDescBySim xs)).trans (ih.cons x)

/-- Insertion preserves the descending order. -/
theorem insortDesc_pairwise (x : ℚ × String × VegProfile)
    (l : List (ℚ × String × VegProfile))
    (hl : List.Pairwise (fun a b => b.1 ≤ a.1) l) :
    List.Pairwise (fun a b => b.1 ≤ a.1) (insortDesc x l) := by
  induction l with
  | nil => simp [insortDesc]
  | cons y ys ih =>
    rcases List.pairwise_cons.mp hl with ⟨hy, hys⟩
    unfold insortDesc
    by_cases h : x.1 < y.1
    · simp only [if_pos h]
      refine List.pairwise_cons.mpr ⟨?_, ih hys⟩
      intro z hz
      rcases List.mem_cons.mp ((insortDesc_perm x ys).mem_iff.mp hz) with hz1 | hz2
      · rw [hz1]; exact le_of_lt h
      · exact hy z hz2
    · simp only [if_neg h]
      refine List.pairwise_cons.mpr ⟨?_, hl⟩
      intro z hz
      rcases List.mem_cons.mp hz with hz1 | hz2
      · rw [hz1]; exact not_lt.mp h
      · exact le_trans (hy z hz2) (not_lt.mp h)

/-- The similarity sort is descending by similarity. -/
theorem sortDescBySim_pairwise (l : List (ℚ × String × VegProfile)) :
    List.Pairwise (fun a b => b.1 ≤ a.1) (sortDescBySim l) := by
  induction l with
  | nil => simp [sortDescBySim]
  | cons x xs ih =>
    unfold sortDescBySim
    exact insortDesc_pairwise x _ ih

/-- If some entry has positive similarity (and all are non-negative), the total
similarity over the top 3 of the descending sort is positive. -/
theorem top3_total_pos (l : List (ℚ × String × VegProfile))
    (e : ℚ × String × VegProfile) (he : e ∈ l) (hpos : 0 < e.1)
    (hnn : ∀ z ∈ l, 0 ≤ z.1) :
    0 < (((sortDescBySim l).take 3).map (·.1)).sum := by
  have hperm := sortDescBySim_perm l
  have hpair := sortDescBySim_pairwise l
  have hesort : e ∈ sortDescBySim l := hperm.mem_iff.mpr he
  cases hsort : sortDescBySim l with
  | nil => rw [hsort] at hesort; simp at hesort
  | cons hd tl =>
    rw [hsort] at hesort hpair
    have hhd : 0 < hd.1 := by
      rcases List.mem_cons.mp hesort with h1 | h2
      · rw [← h1]; exact hpos
      · exact lt_of_lt_of_le hpos ((List.pairwise_cons.mp hpair).1 e h2)
    have htail : 0 ≤ ((tl.take 2).map (·.1)).sum := by
      refine List.sum_nonneg ?_
      intro q hq
      rcases List.mem_map.mp hq with ⟨z, hzmem, hzq⟩
      rw [← hzq]
      have hz : z ∈ sortDescBySim l := by
        rw [hsort]
        exact List.mem_cons_of_mem hd (List.take_subset 2 tl hzmem)
      exact hnn z (hperm.mem_iff.mp hz)
    have ht : List.take 3 (hd :: tl) = hd :: List.take 2 tl := rfl
    rw [ht]
    simp only [List.map_cons, List.sum_cons]
    linarith

/-- C4 (counterexample): `recommend_storage_conditions "xyz"` — a name sharing
no characters with any of the five profile keys — raises `ZeroDivisionError`:
all five similarities are 0, so the weighted average divides by a zero total
similarity (storage_system.py:484 has no guard).  The claim's "never throws …
including for names sharing no characters with any profile key" is false. -/
theorem C4_counterexample_zero_division :
    recommend_storage_conditions "xyz" = Except.error PyErr.zeroDivisionError := by
  have h1 : calculate_name_similarity "xyz" "Tomato" = 0 :=
    sim_zero_of_num_zero _ _ (by decide)
  have h2 : calculate_name_similarity "xyz" "Lettuce" = 0 :=
    sim_zero_of_num_zero _ _ (by decide)
  have h3 : calculate_name_similarity "xyz" "Carrot" = 0 :=
    sim_zero_of_num_zero _ _ (by decide)
  have h4 : calculate_name_similarity "xyz" "Potato" = 0 :=
    sim_zero_of_num_zero _ _ (by decide)
  have h5 : calculate_name_similarity "xyz" "Broccoli" = 0 :=
    sim_zero_of_num_zero _ _ (by decide)
  unfold recommend_storage_conditions
  rw [show vegetable_profiles.find? (fun kp => kp.1 = "xyz") = none from by decide]
  dsimp only [vegetable_profiles, List.map_cons, List.map_nil]
  rw [h1, h2, h3, h4, h5]
  simp [sortDescBySim, insortDesc, List.take]

/-- C4 (amended): `recommend_storage_conditions` does not throw for any name —
known key or not — that shares at least one lower-cased character with at least
one profile key; only a name sharing no characters with any key drives the
total similarity to zero and makes the weighted average raise
`ZeroDivisionError`. -/
theorem C4_recommend_no_throw_amended (name : String)
    (hpos : ∃ k p, (k, p) ∈ vegetable_profiles ∧
      0 < calculate_name_similarity name k) :
    (recommend_storage_conditions name).isOk = true := by
  unfold recommend_storage_conditions
  cases hf : vegetable_profiles.find? (fun kp => kp.1 = name) with
  | some kp => rfl
  | none =>
    dsimp only
    obtain ⟨k, p, hmem, hsim⟩ := hpos
    have he : (calculate_name_similarity name k, k, p) ∈
        vegetable_profiles.map
          (fun kp => (calculate_name_similarity name kp.1, kp.1, kp.2)) :=
      List.mem_map.mpr ⟨(k, p), hmem, rfl⟩
    have hnn : ∀ z ∈ vegetable_profiles.map
        (fun kp => (calculate_name_similarity name kp.1, kp.1, kp.2)), 0 ≤ z.1 := by
      intro z hz
      rcases List.mem_map.mp hz with ⟨kp, _, hkp⟩
      rw [← hkp]
      exact calculate_name_similarity_nonneg name kp.1
    have htot := top3_total_pos _ _ he hsim hnn
    split
    · rfl
    · split
      · rename_i htotal
        rw [htotal] at htot
        exact absurd htot (lt_irrefl 0)
      · rfl

/-- Witness for the amended C4, at spec Scenario F: "Tomatillo" is not a known
key but shares 4 of 6 characters with "Tomato", so the call succeeds. -/
theorem C4_recommend_no_throw_amended_witness :
    (recommend_storage_conditions "Tomatillo").isOk = true :=
  C4_recommend_no_throw_amended "Tomatillo"
    ⟨"Tomato", ⟨12, 85, 7⟩, by decide, by
      unfold calculate_name_similarity
      rw [show simNum "Tomatillo" "Tomato" = 4 from by decide,
        show simDen "Tomatillo" "Tomato" = 6 from by decide]
      rw [if_neg (by decide)]
      exact div_pos (Nat.cast_pos.mpr (by decide)) (Nat.cast_pos.mpr (by decide))⟩
